import Mathlib

/-!
Verification of the currency-converter cache and lookup layer
(src/api_client.py, src/storage.py, src/cli.py).

Shallow embedding conventions:
* Python dicts become association lists (`List (String × _)`) preserving
  insertion order; membership is `lookupKey` (first matching key, as in a
  dict where keys are unique).
* Rates are modelled as rationals (`ℚ`); the spec restricts attention to
  positive finite values, so no floating-point behaviour is at issue.
* Fallible operations return `Option`; the Python `(value, error)` tuples
  of storage.py are `Option ℚ × Option String` verbatim.
* I/O performed by a function is recorded in an explicit event trace
  (`Event`): file reads/writes and network fetches.
* The cache file on disk is a `FileState`: absent, present-but-unparseable
  (json.JSONDecodeError), or parsed to a snapshot.  For the byte-level
  claims about `save_to_file` a second, character-precise view (`FileMap`)
  is used.
-/

set_option autoImplicit false

/-- First-match association-list lookup: `d[k]` / `k in d` for a Python dict
rendered as an insertion-ordered list of key-value pairs. -/
def lookupKey {α : Type} : List (String × α) → String → Option α
  | [], _ => none
  | (k, v) :: rest, k' => if k = k' then some v else lookupKey rest k'

/-- A base-currency entry of the cached JSON object: the provider response
for one base currency.  `rates = none` models an entry that lacks the
"rates" key (accessing it raises KeyError in the source); `rates = some tbl`
is the target-currency → rate table.  Other provider metadata fields play no
role in any lookup and are omitted. -/
structure BaseCurrencyEntry where
  rates : Option (List (String × ℚ))
  deriving DecidableEq

/-- The cached data: a JSON object mapping base-currency codes to entries,
in insertion order (a Python dict). -/
abbrev Snapshot := List (String × BaseCurrencyEntry)

/-- I/O performed by an operation, recorded as an explicit trace. -/
inductive Event where
  | fileRead (name : String)
  | fileWrite (name : String)
  | netFetch (currency : String)
  deriving DecidableEq

/-- The cache file as the data-level functions see it: missing
(FileNotFoundError on open), present but not valid JSON
(json.JSONDecodeError), or parsed to a snapshot. -/
inductive FileState where
  | absent
  | unparseable
  | parsed (s : Snapshot)
  deriving DecidableEq

/-- `os.path.exists` on the cache path. -/
def fileExists : FileState → Bool
  | .absent => false
  | _ => true

/-- read_from_file (src/storage.py lines 30-51): returns the parsed data, or
None on FileNotFoundError / JSONDecodeError (every exception is caught and
turned into None).  One file read (or attempted read) happens either way. -/
def read_from_file (fs : FileState) : Option Snapshot × List Event :=
  match fs with
  | .absent => (none, [.fileRead "currency.json"])
  | .unparseable => (none, [.fileRead "currency.json"])
  | .parsed s => (some s, [.fileRead "currency.json"])

/-- The error message of get_exchange_rate when the base currency is
missing (storage.py line 134). -/
def baseNotFoundMsg (base : String) : String :=
  "Базовая валюта " ++ (base ++ " не найдена")

/-- The error message of get_exchange_rate when the target currency is
missing (storage.py line 138). -/
def targetNotFoundMsg (target : String) : String :=
  "Целевая валюта " ++ (target ++ " не найдена")

/-- The message of the `except` branch of get_exchange_rate
(storage.py line 142); in the embedding it is reached exactly when the base
entry lacks its "rates" key (the KeyError of line 136).  The Python string
interpolates str(e); the embedded message keeps the fixed prefix only. -/
def ratesKeyErrorMsg : String :=
  "Ошибка при получении курса: KeyError"

/-- The pure core of get_exchange_rate (storage.py lines 131-142): what the
function computes from the result of its read_from_file call.  Mirrors the
source line by line: `not data or base_currency not in data` (an empty dict
is falsy, and lookup on it fails, so both give the base-not-found message),
then `data[base_currency]['rates']` (KeyError → except branch), then the
target check. -/
def lookup_exchange_rate (data : Option Snapshot) (base target : String) :
    Option ℚ × Option String :=
  match data with
  | none => (none, some (baseNotFoundMsg base))
  | some d =>
    match lookupKey d base with
    | none => (none, some (baseNotFoundMsg base))
    | some entry =>
      match entry.rates with
      | none => (none, some ratesKeyErrorMsg)
      | some rates =>
        match lookupKey rates target with
        | none => (none, some (targetNotFoundMsg target))
        | some r => (some r, none)

/-- get_exchange_rate (storage.py lines 129-142).  Note it takes no snapshot
argument in the source: it re-reads the cache file itself. -/
def get_exchange_rate (fs : FileState) (base target : String) :
    (Option ℚ × Option String) × List Event :=
  let (data, ev) := read_from_file fs
  (lookup_exchange_rate data base target, ev)

/-- Python truthiness of the `error` component: `if error:` is taken when
the error is neither None nor the empty string. -/
def errTruthy : Option String → Bool
  | none => false
  | some s => !(s = "")

/-- convert_currency (storage.py lines 145-152): delegates to
get_exchange_rate, propagates a truthy error, otherwise multiplies.  In the
source `amount * rate` would raise if the rate were None with a falsy error;
`Option.map` is used here, and `lookup_cases` below shows that case never
arises. -/
def convert_currency (fs : FileState) (amount : ℚ) (base target : String) :
    (Option ℚ × Option String) × List Event :=
  let ((rate, error), ev) := get_exchange_rate fs base target
  if errTruthy error then ((none, error), ev)
  else ((rate.map (fun r => amount * r), none), ev)

/-- The pure core of get_available_currencies (storage.py lines 117-126):
on a falsy read result (None or empty dict) return []; otherwise take the
first base key and list its "rates" keys; the exception of a missing
"rates" table yields [].  `data[first_base]` with `first_base` the first
key is the first entry. -/
def available_from (data : Option Snapshot) : List String :=
  match data with
  | none => []
  | some [] => []
  | some ((_, entry) :: _) =>
    match entry.rates with
    | none => []
    | some rates => rates.map Prod.fst

/-- get_available_currencies (storage.py lines 115-126).  Like
get_exchange_rate it takes no snapshot argument in the source: it re-reads
the cache file itself. -/
def get_available_currencies (fs : FileState) : List String × List Event :=
  let (data, ev) := read_from_file fs
  (available_from data, ev)

/-- is_file_recent (storage.py lines 54-77): false when the path does not
exist; false when reading the mtime raises (`statOk = false` models the
except branch); otherwise `datetime.now() - file_datetime <
timedelta(hours=hours)`, a strict comparison.  Times are wall-clock
seconds. -/
def is_file_recent (pathExists statOk : Bool) (mtime now : ℚ) (hours : ℕ) :
    Bool :=
  if !pathExists then false
  else if !statOk then false
  else decide (now - mtime < (hours : ℚ) * 3600)

/-- The fixed watch-list FAVORITE_CURRENCIES (src/api_client.py line 10). -/
def FAVORITE_CURRENCIES : List String := ["USD", "EUR", "GBP", "RUB"]

/-- The network, as the refresh loop observes it: for each base currency
either a successful provider response (the parsed entry) or a failure
(HTTP error, non-success API status, or exception — get_currency_rate
returns None in all three cases, api_client.py lines 13-43). -/
abbrev FetchOracle := String → Option BaseCurrencyEntry

/-- The accumulation loop of update_currency_rates (api_client.py lines
58-66): successful fetches are inserted in watch-list order, failures are
skipped. -/
def collectRates (fetch : FetchOracle) : List String → Snapshot
  | [] => []
  | c :: rest =>
    match fetch c with
    | some entry => (c, entry) :: collectRates fetch rest
    | none => collectRates fetch rest

/-- update_currency_rates (api_client.py lines 46-69): fetch every currency
of the watch-list, collect the successes, return the dict (possibly empty).
Every currency is fetched exactly once, in order. -/
def update_currency_rates (fetch : FetchOracle) : Snapshot × List Event :=
  (collectRates fetch FAVORITE_CURRENCIES, FAVORITE_CURRENCIES.map .netFetch)

/-- The on-disk cache file together with its stat metadata, as
load_or_update_data consults it. -/
structure DiskFile where
  state : FileState
  mtime : ℚ
  statOk : Bool

/-- The refresh tail of load_or_update_data (storage.py lines 102-112):
update from the API; if the result is falsy (empty dict) return None leaving
the file alone, otherwise save it and return it.  `ev0` are the events of
the steps already taken. -/
def load_refresh_step (fs : FileState) (ev0 : List Event)
    (fetch : FetchOracle) : Option Snapshot × FileState × List Event :=
  let (all_data, ev) := update_currency_rates fetch
  if all_data.isEmpty then (none, fs, ev0 ++ ev)
  else (some all_data, .parsed all_data, ev0 ++ ev ++ [.fileWrite "currency.json"])

/-- load_or_update_data (storage.py lines 80-112): if the file is recent,
read it and return the data when truthy (non-None and non-empty); otherwise
(not recent, unreadable, unparseable, or empty) fall through to the refresh
step.  Returns the result, the file state afterwards, and the I/O trace.
The save of a successful refresh is modelled as succeeding. -/
def load_or_update_data (disk : DiskFile) (now : ℚ) (fetch : FetchOracle) :
    Option Snapshot × FileState × List Event :=
  if is_file_recent (fileExists disk.state) disk.statOk disk.mtime now 24 then
    let (data, ev) := read_from_file disk.state
    match data with
    | some d =>
      if d.isEmpty then load_refresh_step disk.state ev fetch
      else (some d, disk.state, ev)
    | none => load_refresh_step disk.state ev fetch
  else load_refresh_step disk.state [] fetch

/-- Menu action 4 of the CLI (src/cli.py lines 157-160): it calls
update_currency_rates() and discards the returned dict — save_to_file is
never called on this path, so the cache file is left as it was. -/
def menu_force_refresh (fs : FileState) (fetch : FetchOracle) :
    FileState × List Event :=
  let (_all_data, ev) := update_currency_rates fetch
  (fs, ev)

/-! Byte-level view of the file system, for save_to_file. -/

/-- File system as file name → text content, insertion-ordered. -/
abbrev FileMap := List (String × String)

/-- Overwrite (or create) one file. -/
def setFile : FileMap → String → String → FileMap
  | [], name, content => [(name, content)]
  | (n, c) :: rest, name, content =>
    if n = name then (n, content) :: rest
    else (n, c) :: setFile rest name content

/-- Content of one file, none when absent. -/
def getFile (fm : FileMap) (name : String) : Option String :=
  lookupKey fm name

/-- save_to_file (storage.py lines 14-27) at character precision.
`content` stands for the json.dump serialization of the snapshot; `openOk =
false` models open() itself raising (file untouched); `budget` is the
number of characters json.dump writes before an exception interrupts it
(`budget ≥ content.length`: no failure).  `open(filename, "w")` truncates
the target in place and json.dump streams into it, and the except branch
only prints, so an interrupted dump leaves the target holding a prefix of
the new serialization.  No temporary file and no rename occur anywhere in
the source function. -/
def save_to_file (content filename : String) (openOk : Bool) (budget : ℕ)
    (fm : FileMap) : FileMap :=
  if !openOk then fm
  else setFile fm filename
    (if content.length ≤ budget then content else content.take budget)

/-- The spec's validity condition on snapshots: every base entry has a rates
table and every rate in it is positive (finiteness is inherent in ℚ). -/
def validSnapshot (s : Snapshot) : Prop :=
  ∀ p ∈ s, ∃ tbl, p.2.rates = some tbl ∧ ∀ q ∈ tbl, (0 : ℚ) < q.2

/-- Exactly one component of a (value, error) pair is populated. -/
def exactlyOneOf (p : Option ℚ × Option String) : Prop :=
  (p.1.isSome = true ∧ p.2 = none) ∨ (p.1 = none ∧ p.2.isSome = true)

/-! Concrete data used by counterexamples and witnesses. -/

/-- The spec §8 scenario snapshot:
{"USD": {"rates": {"USD": 1.0, "EUR": 0.9, "RUB": 95.0}}}. -/
def sampleSnap : Snapshot :=
  [("USD", ⟨some [("USD", 1), ("EUR", (9 : ℚ)/10), ("RUB", 95)]⟩)]

/-- A snapshot differing from `sampleSnap` only in the USD→EUR rate. -/
def sampleSnapAlt : Snapshot :=
  [("USD", ⟨some [("USD", 1), ("EUR", (95 : ℚ)/100), ("RUB", 95)]⟩)]

/-- A fetch oracle on which every watch-list fetch succeeds, producing the
rates of `sampleSnapAlt`. -/
def freshFetch : FetchOracle :=
  fun _ => some ⟨some [("USD", 1), ("EUR", (95 : ℚ)/100), ("RUB", 95)]⟩

/-- Whether reading the cache file gives a truthy result (a parsed,
non-empty snapshot): the condition under which the recent-file branch of
load_or_update_data returns without refreshing (storage.py line 93). -/
def usableRead : FileState → Bool
  | .parsed s => !s.isEmpty
  | _ => false

/-- A run with no cache file on disk. -/
def emptyDisk : DiskFile := ⟨.absent, 0, true⟩

/-- A fetch oracle on which only the USD fetch succeeds. -/
def usdOnlyFetch : FetchOracle :=
  fun c => if c = "USD" then some ⟨some [("EUR", (95 : ℚ)/100)]⟩ else none

/-! Helper lemmas. -/

theorem lookupKey_mem {α : Type} {l : List (String × α)} {k : String} {v : α}
    (h : lookupKey l k = some v) : (k, v) ∈ l := by
  induction l with
  | nil => exact Option.noConfusion h
  | cons p rest ih =>
    obtain ⟨k', v'⟩ := p
    simp only [lookupKey] at h
    by_cases hk : k' = k
    · rw [if_pos hk] at h
      cases Option.some.inj h
      subst hk
      exact List.mem_cons_self _ _
    · rw [if_neg hk] at h
      exact List.mem_cons_of_mem _ (ih h)

theorem head_baseNotFoundMsg (b : String) :
    (baseNotFoundMsg b).data.head? = some 'Б' := by
  cases b
  rfl

theorem head_targetNotFoundMsg (t : String) :
    (targetNotFoundMsg t).data.head? = some 'Ц' := by
  cases t
  rfl

theorem msg_nonempty {s : String} {c : Char} (h : s.data.head? = some c) :
    s ≠ "" := by
  intro he
  subst he
  exact Option.noConfusion h

theorem baseMsg_ne_targetMsg (b t : String) :
    baseNotFoundMsg b ≠ targetNotFoundMsg t := by
  intro h
  have h2 := congrArg (fun s => s.data.head?) h
  simp only at h2
  rw [head_baseNotFoundMsg, head_targetNotFoundMsg] at h2
  exact absurd (Option.some.inj h2) (by decide)

theorem targetMsg_ne_keyErrorMsg (t : String) :
    targetNotFoundMsg t ≠ ratesKeyErrorMsg := by
  intro h
  have h2 := congrArg (fun s => s.data.head?) h
  simp only at h2
  rw [head_targetNotFoundMsg] at h2
  exact absurd h2 (by decide)

theorem baseMsg_ne_keyErrorMsg (b : String) :
    baseNotFoundMsg b ≠ ratesKeyErrorMsg := by
  intro h
  have h2 := congrArg (fun s => s.data.head?) h
  simp only at h2
  rw [head_baseNotFoundMsg] at h2
  exact absurd h2 (by decide)

/-- Every branch of the pure lookup core returns either a rate with no
error, or no rate with an error message that is not the empty string. -/
theorem lookup_cases (data : Option Snapshot) (b t : String) :
    (∃ r, lookup_exchange_rate data b t = (some r, none)) ∨
    (∃ s, lookup_exchange_rate data b t = (none, some s) ∧ s ≠ "") := by
  cases data with
  | none => exact Or.inr ⟨_, rfl, msg_nonempty (head_baseNotFoundMsg b)⟩
  | some d =>
    cases h1 : lookupKey d b with
    | none =>
      refine Or.inr ⟨_, ?_, msg_nonempty (head_baseNotFoundMsg b)⟩
      simp only [lookup_exchange_rate, h1]
    | some entry =>
      cases h2 : entry.rates with
      | none =>
        refine Or.inr ⟨ratesKeyErrorMsg, ?_, by decide⟩
        simp only [lookup_exchange_rate, h1, h2]
      | some rates =>
        cases h3 : lookupKey rates t with
        | none =>
          refine Or.inr ⟨_, ?_, msg_nonempty (head_targetNotFoundMsg t)⟩
          simp only [lookup_exchange_rate, h1, h2, h3]
        | some r =>
          refine Or.inl ⟨r, ?_⟩
          simp only [lookup_exchange_rate, h1, h2, h3]

theorem get_exchange_rate_eq (fs : FileState) (b t : String) :
    get_exchange_rate fs b t =
      (lookup_exchange_rate (read_from_file fs).1 b t, (read_from_file fs).2) := by
  cases fs <;> rfl

theorem read_events (fs : FileState) :
    (read_from_file fs).2 = [Event.fileRead "currency.json"] := by
  cases fs <;> rfl

/-! Claim theorems. -/

/-- Claim C9: for every cache-file state, amount, base and target, the rate
lookup and the conversion each return a pair in which exactly one component
is meaningful — a value with no error, or no value with an error message,
never both present and never both absent. -/
theorem lookup_and_convert_exclusive (fs : FileState) (a : ℚ) (b t : String) :
    exactlyOneOf (get_exchange_rate fs b t).1 ∧
    exactlyOneOf (convert_currency fs a b t).1 := by
  rcases lookup_cases (read_from_file fs).1 b t with ⟨r, hr⟩ | ⟨s, hs, hne⟩
  · refine ⟨?_, ?_⟩
    · rw [get_exchange_rate_eq, hr]
      exact Or.inl ⟨rfl, rfl⟩
    · have hc : convert_currency fs a b t =
          ((some (a * r), (none : Option String)), (read_from_file fs).2) := by
        simp [convert_currency, get_exchange_rate_eq, hr, errTruthy]
      rw [hc]
      exact Or.inl ⟨rfl, rfl⟩
  · refine ⟨?_, ?_⟩
    · rw [get_exchange_rate_eq, hs]
      exact Or.inr ⟨rfl, rfl⟩
    · have hc : convert_currency fs a b t =
          (((none : Option ℚ), some s), (read_from_file fs).2) := by
        simp [convert_currency, get_exchange_rate_eq, hs, errTruthy, hne]
      rw [hc]
      exact Or.inr ⟨rfl, rfl⟩

/-- Claim C10: the available-currencies operation is total over every cache
state: a missing file, an unparseable file, an empty snapshot, and a first
base entry lacking its "rates" table each yield the empty list, and
otherwise the result is the list of target-currency keys of the first base
entry. -/
theorem available_currencies_total (fs : FileState) :
    (fs = .absent → (get_available_currencies fs).1 = [])
    ∧ (fs = .unparseable → (get_available_currencies fs).1 = [])
    ∧ (fs = .parsed [] → (get_available_currencies fs).1 = [])
    ∧ (∀ b e rest, fs = .parsed ((b, e) :: rest) → e.rates = none →
        (get_available_currencies fs).1 = [])
    ∧ (∀ b e rest tbl, fs = .parsed ((b, e) :: rest) → e.rates = some tbl →
        (get_available_currencies fs).1 = tbl.map Prod.fst) := by
  refine ⟨fun h => by subst h; rfl, fun h => by subst h; rfl,
    fun h => by subst h; rfl,
    fun b e rest h hr => ?_, fun b e rest tbl h hr => ?_⟩
  · subst h
    simp [get_available_currencies, available_from, read_from_file, hr]
  · subst h
    simp [get_available_currencies, available_from, read_from_file, hr]

/-- Witness for C10 at the spec §8 snapshot: the listing returns the target
keys of the first (only) base entry. -/
theorem available_currencies_total_witness :
    (get_available_currencies (.parsed sampleSnap)).1 = ["USD", "EUR", "RUB"] :=
  ((available_currencies_total (.parsed sampleSnap)).2.2.2.2 "USD"
    ⟨some [("USD", 1), ("EUR", (9 : ℚ)/10), ("RUB", 95)]⟩ []
    [("USD", 1), ("EUR", (9 : ℚ)/10), ("RUB", 95)] rfl rfl).trans (by decide)

/-- Claim C4: the freshness test uses strict inequality on the age delta:
an existing cache file whose mtime is readable is recent exactly when
now − mtime is strictly below hours·3600 seconds (hours = 24); a file aged
exactly 24h is not recent, one aged 23h59m is. -/
theorem freshness_strict (mtime now : ℚ) :
    (is_file_recent true true mtime now 24 = true ↔ now - mtime < 24 * 3600)
    ∧ is_file_recent true true (now - 24 * 3600) now 24 = false
    ∧ is_file_recent true true (now - (23 * 3600 + 59 * 60)) now 24 = true := by
  refine ⟨?_, ?_, ?_⟩
  · simp only [is_file_recent, Bool.not_true, Bool.false_eq_true, if_false,
      decide_eq_true_eq]
    norm_num
  · simp only [is_file_recent, Bool.not_true, Bool.false_eq_true, if_false,
      decide_eq_false_iff_not]
    push_cast
    intro h
    linarith
  · simp only [is_file_recent, Bool.not_true, Bool.false_eq_true, if_false,
      decide_eq_true_eq]
    push_cast
    linarith

/-- Claim C5: on a valid snapshot (every entry has a rates table of
strictly positive rates), for a base currency present in the snapshot, a
target present in that base's rate table, and a positive amount, the rate
lookup succeeds with a strictly positive rate and the conversion succeeds
with exactly amount · rate. -/
theorem rate_positive_and_convert (S : Snapshot) (b t : String) (a : ℚ)
    (e : BaseCurrencyEntry) (tbl : List (String × ℚ)) (r : ℚ)
    (hval : validSnapshot S) (_ha : 0 < a)
    (hb : lookupKey S b = some e) (he : e.rates = some tbl)
    (ht : lookupKey tbl t = some r) :
    (get_exchange_rate (.parsed S) b t).1 = (some r, none) ∧ 0 < r ∧
    (convert_currency (.parsed S) a b t).1 = (some (a * r), none) := by
  have hres : (get_exchange_rate (.parsed S) b t).1 = (some r, none) := by
    rw [get_exchange_rate_eq]
    simp [read_from_file, lookup_exchange_rate, hb, he, ht]
  obtain ⟨tbl', he', hpos⟩ := hval _ (lookupKey_mem hb)
  rw [he] at he'
  cases Option.some.inj he'
  refine ⟨hres, hpos _ (lookupKey_mem ht), ?_⟩
  simp [convert_currency, get_exchange_rate_eq, read_from_file,
    lookup_exchange_rate, hb, he, ht, errTruthy]

/-- Witness for C5 at the spec §8 scenario: USD→EUR at rate 0.9, amount
100, conversion 90. -/
theorem rate_positive_and_convert_witness :
    (get_exchange_rate (.parsed sampleSnap) "USD" "EUR").1
      = (some ((9 : ℚ)/10), none)
    ∧ (0 : ℚ) < (9 : ℚ)/10
    ∧ (convert_currency (.parsed sampleSnap) 100 "USD" "EUR").1
      = (some ((100 : ℚ) * ((9 : ℚ)/10)), none) :=
  rate_positive_and_convert sampleSnap "USD" "EUR" 100
    ⟨some [("USD", 1), ("EUR", (9 : ℚ)/10), ("RUB", 95)]⟩
    [("USD", 1), ("EUR", (9 : ℚ)/10), ("RUB", 95)] ((9 : ℚ)/10)
    (by
      intro p hp
      simp only [sampleSnap, List.mem_singleton] at hp
      subst hp
      refine ⟨_, rfl, ?_⟩
      intro q hq
      fin_cases hq <;> norm_num)
    (by norm_num) rfl rfl rfl

/-- Claim C6: over snapshots whose base entry (when present) carries a rates
table, the rate lookup fails with the base-not-found error exactly when the
base is not a key of the snapshot, fails with the target-not-found error
exactly when the base is a key but the target is not a key of its rate
table, and otherwise succeeds with exactly the stored rate. -/
theorem exchange_rate_error_cases (S : Snapshot) (b t : String)
    (hwf : ∀ e, lookupKey S b = some e → e.rates ≠ none) :
    ((get_exchange_rate (.parsed S) b t).1 = (none, some (baseNotFoundMsg b)) ↔
      lookupKey S b = none)
    ∧ ((get_exchange_rate (.parsed S) b t).1 = (none, some (targetNotFoundMsg t)) ↔
      ∃ e tbl, lookupKey S b = some e ∧ e.rates = some tbl ∧
        lookupKey tbl t = none)
    ∧ (∀ r : ℚ, (get_exchange_rate (.parsed S) b t).1 = (some r, none) ↔
      ∃ e tbl, lookupKey S b = some e ∧ e.rates = some tbl ∧
        lookupKey tbl t = some r) := by
  rw [get_exchange_rate_eq]
  cases h1 : lookupKey S b with
  | none =>
    refine ⟨?_, ?_, ?_⟩
    · simp [read_from_file, lookup_exchange_rate, h1]
    · simp [read_from_file, lookup_exchange_rate, h1]
      exact baseMsg_ne_targetMsg b t
    · intro r
      simp [read_from_file, lookup_exchange_rate, h1]
  | some e =>
    obtain ⟨tbl, he⟩ := Option.ne_none_iff_exists'.mp (hwf e h1)
    cases h3 : lookupKey tbl t with
    | none =>
      refine ⟨?_, ?_, ?_⟩
      · simp [read_from_file, lookup_exchange_rate, h1, he, h3]
        exact Ne.symm (baseMsg_ne_targetMsg b t)
      · simp only [read_from_file, lookup_exchange_rate, h1, he, h3]
        constructor
        · intro _
          exact ⟨e, tbl, rfl, he, h3⟩
        · intro _
          trivial
      · intro r
        simp only [read_from_file, lookup_exchange_rate, h1, he, h3]
        constructor
        · intro h
          exact absurd h (by simp)
        · rintro ⟨e', tbl', he', ht', hr'⟩
          cases Option.some.inj he'
          rw [he] at ht'
          cases Option.some.inj ht'
          rw [h3] at hr'
          exact Option.noConfusion hr'
    | some r0 =>
      refine ⟨?_, ?_, ?_⟩
      · simp [read_from_file, lookup_exchange_rate, h1, he, h3]
      · simp only [read_from_file, lookup_exchange_rate, h1, he, h3]
        constructor
        · intro h
          exact absurd h (by simp)
        · rintro ⟨e', tbl', he', ht', hr'⟩
          cases Option.some.inj he'
          rw [he] at ht'
          cases Option.some.inj ht'
          rw [h3] at hr'
          exact Option.noConfusion hr'
      · intro r
        simp only [read_from_file, lookup_exchange_rate, h1, he, h3,
          Prod.mk.injEq, Option.some.injEq, and_true]
        constructor
        · intro h
          exact ⟨e, tbl, rfl, he, h ▸ h3⟩
        · rintro ⟨e', tbl', he', ht', hr'⟩
          cases he'
          rw [he] at ht'
          cases Option.some.inj ht'
          rw [h3] at hr'
          exact Option.some.inj hr'

/-- Witness for C6 at the spec §8 scenario: USD→GBP fails with the
target-not-found error. -/
theorem exchange_rate_error_cases_witness :
    (get_exchange_rate (.parsed sampleSnap) "USD" "GBP").1
      = (none, some (targetNotFoundMsg "GBP")) :=
  ((exchange_rate_error_cases sampleSnap "USD" "GBP"
    (by
      intro e he
      simp [sampleSnap, lookupKey] at he
      subst he
      simp)).2.1).mpr
    ⟨⟨some [("USD", 1), ("EUR", (9 : ℚ)/10), ("RUB", 95)]⟩,
      [("USD", 1), ("EUR", (9 : ℚ)/10), ("RUB", 95)], rfl, rfl, rfl⟩

/-- The collected snapshot is empty exactly when every fetch failed. -/
theorem collectRates_eq_nil_iff (fetch : FetchOracle) (l : List String) :
    collectRates fetch l = [] ↔ ∀ c ∈ l, fetch c = none := by
  induction l with
  | nil => simp [collectRates]
  | cons c rest ih =>
    cases hc : fetch c with
    | none => simp [collectRates, hc, ih]
    | some e => simp [collectRates, hc]

/-- The keys of the collected snapshot are exactly the watch-list
currencies whose fetch succeeded, in watch-list order. -/
theorem collectRates_keys (fetch : FetchOracle) (l : List String) :
    (collectRates fetch l).map Prod.fst
      = l.filter (fun c => (fetch c).isSome) := by
  induction l with
  | nil => rfl
  | cons c rest ih =>
    cases hc : fetch c with
    | none => simp [collectRates, hc, ih, List.filter_cons]
    | some e => simp [collectRates, hc, ih, List.filter_cons]

/-- The data component of the refresh step, independent of the incoming
event prefix: None when nothing was collected, the collected snapshot
otherwise. -/
theorem load_refresh_step_fst (fs : FileState) (ev0 : List Event)
    (fetch : FetchOracle) :
    (load_refresh_step fs ev0 fetch).1 =
      if (collectRates fetch FAVORITE_CURRENCIES).isEmpty then none
      else some (collectRates fetch FAVORITE_CURRENCIES) := by
  cases hni : (collectRates fetch FAVORITE_CURRENCIES).isEmpty <;>
    simp [load_refresh_step, update_currency_rates, hni]

/-- The refresh step never touches the file when nothing was collected,
and its events are the four fetches (plus the file write on success). -/
theorem load_refresh_step_events (fs : FileState) (ev0 : List Event)
    (fetch : FetchOracle) :
    (load_refresh_step fs ev0 fetch).2.2 =
      if (collectRates fetch FAVORITE_CURRENCIES).isEmpty
      then ev0 ++ FAVORITE_CURRENCIES.map Event.netFetch
      else ev0 ++ FAVORITE_CURRENCIES.map Event.netFetch
           ++ [Event.fileWrite "currency.json"] := by
  cases hni : (collectRates fetch FAVORITE_CURRENCIES).isEmpty <;>
    simp [load_refresh_step, update_currency_rates, hni]

/-- Claim C7: when the cache file is recent and parses to a usable
(non-empty) snapshot, loadOrRefresh returns exactly that snapshot and the
fetcher is never invoked: no network event occurs. -/
theorem load_recent_never_fetches (disk : DiskFile) (now : ℚ)
    (fetch : FetchOracle) (s : Snapshot)
    (hrec : is_file_recent (fileExists disk.state) disk.statOk disk.mtime
      now 24 = true)
    (hs : disk.state = .parsed s) (hne : s ≠ []) :
    (load_or_update_data disk now fetch).1 = some s ∧
    ∀ c, Event.netFetch c ∉ (load_or_update_data disk now fetch).2.2 := by
  have hie : s.isEmpty = false := by
    cases s with
    | nil => exact absurd rfl hne
    | cons x xs => rfl
  rw [hs] at hrec
  have hload : load_or_update_data disk now fetch
      = (some s, .parsed s, [Event.fileRead "currency.json"]) := by
    unfold load_or_update_data
    rw [hs]
    simp [hrec, read_from_file, hie]
  rw [hload]
  exact ⟨rfl, fun c => by simp⟩

/-- Witness for C7: a recent, parsed, non-empty cache file is returned
as-is even against a fetch oracle that would fail every request. -/
theorem load_recent_never_fetches_witness :
    (load_or_update_data ⟨.parsed sampleSnap, 0, true⟩ 0
      (fun _ => none)).1 = some sampleSnap :=
  (load_recent_never_fetches ⟨.parsed sampleSnap, 0, true⟩ 0 (fun _ => none)
    sampleSnap
    (by simp [is_file_recent, fileExists])
    rfl (by simp [sampleSnap])).1

/-- Claim C8: when no usable cache exists (missing, stale, unparseable or
empty file), loadOrRefresh fails exactly when every watch-list fetch
fails; and when at least one fetch succeeds it returns the collected
snapshot, whose base currencies are exactly the watch-list currencies that
fetched successfully. -/
theorem load_refresh_outcomes (disk : DiskFile) (now : ℚ)
    (fetch : FetchOracle)
    (h : is_file_recent (fileExists disk.state) disk.statOk disk.mtime
        now 24 = false
      ∨ usableRead disk.state = false) :
    ((load_or_update_data disk now fetch).1 = none ↔
      ∀ c ∈ FAVORITE_CURRENCIES, fetch c = none)
    ∧ ((∃ c ∈ FAVORITE_CURRENCIES, (fetch c).isSome) →
      (load_or_update_data disk now fetch).1
          = some (collectRates fetch FAVORITE_CURRENCIES)
        ∧ (collectRates fetch FAVORITE_CURRENCIES).map Prod.fst
          = FAVORITE_CURRENCIES.filter (fun c => (fetch c).isSome)) := by
  have hempty_iff : (collectRates fetch FAVORITE_CURRENCIES).isEmpty = true
      ↔ ∀ c ∈ FAVORITE_CURRENCIES, fetch c = none := by
    rw [List.isEmpty_iff]
    exact collectRates_eq_nil_iff fetch FAVORITE_CURRENCIES
  have hfst : (load_or_update_data disk now fetch).1
      = if (collectRates fetch FAVORITE_CURRENCIES).isEmpty then none
        else some (collectRates fetch FAVORITE_CURRENCIES) := by
    rw [← load_refresh_step_fst disk.state [] fetch]
    unfold load_or_update_data
    by_cases hrec : is_file_recent (fileExists disk.state) disk.statOk
        disk.mtime now 24 = true
    · rw [if_pos hrec]
      rcases h with h | h
      · rw [hrec] at h
        exact Bool.noConfusion h
      · cases hds : disk.state with
        | absent => simp [read_from_file, load_refresh_step_fst]
        | unparseable => simp [read_from_file, load_refresh_step_fst]
        | parsed s =>
          rw [hds] at h
          simp only [usableRead, Bool.not_eq_false'] at h
          simp [read_from_file, h, load_refresh_step_fst]
    · rw [if_neg hrec]
  refine ⟨?_, ?_⟩
  · rw [hfst]
    constructor
    · intro hn
      by_cases hni : (collectRates fetch FAVORITE_CURRENCIES).isEmpty = true
      · exact hempty_iff.mp hni
      · rw [if_neg hni] at hn
        exact Option.noConfusion hn
    · intro hall
      rw [if_pos (hempty_iff.mpr hall)]
  · rintro ⟨c, hc, hsome⟩
    have hni : ¬((collectRates fetch FAVORITE_CURRENCIES).isEmpty = true) := by
      intro hni
      rw [hempty_iff.mp hni c hc] at hsome
      exact Bool.noConfusion hsome
    refine ⟨?_, collectRates_keys fetch FAVORITE_CURRENCIES⟩
    rw [hfst, if_neg hni]

/-- Witness for C8: with no cache file and only the USD fetch succeeding,
loadOrRefresh returns a snapshot holding exactly the USD entry. -/
theorem load_refresh_outcomes_witness :
    (is_file_recent (fileExists emptyDisk.state) emptyDisk.statOk
        emptyDisk.mtime 0 24 = false
      ∨ usableRead emptyDisk.state = false)
    ∧ (load_or_update_data emptyDisk 0 usdOnlyFetch).1
        = some (collectRates usdOnlyFetch FAVORITE_CURRENCIES) :=
  ⟨Or.inl rfl,
   ((load_refresh_outcomes emptyDisk 0 usdOnlyFetch (Or.inl rfl)).2
     ⟨"USD", by simp [FAVORITE_CURRENCIES], rfl⟩).1⟩

/-- Claim C1 is violated by the code: menu action 4 succeeds on every
watch-list fetch, yet the fetched snapshot is discarded — the cache file is
exactly the old one afterwards, and a subsequent lookup still returns the
old 0.9 rate while the discarded fresh data carried 0.95. -/
theorem menu_force_refresh_discards :
    FAVORITE_CURRENCIES.all (fun c => (freshFetch c).isSome) = true
    ∧ (menu_force_refresh (.parsed sampleSnap) freshFetch).1
        = .parsed sampleSnap
    ∧ (get_exchange_rate
        (menu_force_refresh (.parsed sampleSnap) freshFetch).1
        "USD" "EUR").1 = (some ((9 : ℚ)/10), none)
    ∧ lookupKey (collectRates freshFetch FAVORITE_CURRENCIES) "USD"
        = some ⟨some [("USD", 1), ("EUR", (95 : ℚ)/100), ("RUB", 95)]⟩
    ∧ (9 : ℚ)/10 ≠ (95 : ℚ)/100 := by
  refine ⟨rfl, rfl, rfl, rfl, by norm_num⟩

/-- Writing a file and reading it back under the same name yields exactly
the written content. -/
theorem getFile_setFile (fm : FileMap) (name content : String) :
    getFile (setFile fm name content) name = some content := by
  induction fm with
  | nil => simp [setFile, getFile, lookupKey]
  | cons p rest ih =>
    obtain ⟨n, c⟩ := p
    by_cases hn : n = name
    · subst hn
      simp [setFile, getFile, lookupKey]
    · simp [setFile, getFile, lookupKey, hn]
      exact ih

/-- Counterexample to C2: with the cache file previously holding "OLDDATA"
intact, a save of "NEWDATA" interrupted after three characters leaves the
file holding "NEW" — a partially written serialization, neither the prior
contents nor the new ones: no write-to-temp-and-rename protects the prior
file. -/
theorem save_to_file_not_atomic :
    getFile (save_to_file "NEWDATA" "currency.json" true 3
      [("currency.json", "OLDDATA")]) "currency.json" = some "NEW"
    ∧ (some "NEW" : Option String) ≠ some "OLDDATA"
    ∧ (some "NEW" : Option String) ≠ some "NEWDATA" :=
  ⟨rfl, by decide, by decide⟩

/-- C2 amended: save_to_file writes the serialization directly into the
target path, truncating it on open: afterwards the file holds the full
serialization when the write completed, and the prefix written so far when
it was interrupted — the previously persisted contents are destroyed either
way (they survive only when open() itself fails). -/
theorem save_to_file_overwrites (content filename : String) (budget : ℕ)
    (fm : FileMap) :
    getFile (save_to_file content filename true budget fm) filename
      = some (if content.length ≤ budget then content
              else content.take budget) := by
  simp [save_to_file, getFile_setFile]

/-- convert_currency written without the tuple destructuring: the branch on
the truthiness of the error returned by the underlying lookup. -/
theorem convert_currency_eq (fs : FileState) (a : ℚ) (b t : String) :
    convert_currency fs a b t =
      (if errTruthy (lookup_exchange_rate (read_from_file fs).1 b t).2
       then ((none, (lookup_exchange_rate (read_from_file fs).1 b t).2),
         (read_from_file fs).2)
       else (((lookup_exchange_rate (read_from_file fs).1 b t).1.map
         (fun r => a * r), none), (read_from_file fs).2)) := by
  cases fs <;> rfl

/-- Counterexample to C3: the trace of each lookup contains a file read,
and changing only the file contents changes the result of the very same
call — the lookups are not functions of a snapshot argument alone and do
perform file I/O. -/
theorem lookups_not_pure_of_snapshot :
    (get_exchange_rate (.parsed sampleSnap) "USD" "EUR").2
      = [Event.fileRead "currency.json"]
    ∧ (get_available_currencies (.parsed sampleSnap)).2
      = [Event.fileRead "currency.json"]
    ∧ (convert_currency (.parsed sampleSnap) 100 "USD" "EUR").2
      = [Event.fileRead "currency.json"]
    ∧ (get_exchange_rate (.parsed sampleSnap) "USD" "EUR").1
      ≠ (get_exchange_rate (.parsed sampleSnapAlt) "USD" "EUR").1 := by
  refine ⟨rfl, rfl, rfl, ?_⟩
  have h1 : (get_exchange_rate (.parsed sampleSnap) "USD" "EUR").1
      = (some ((9 : ℚ)/10), none) := rfl
  have h2 : (get_exchange_rate (.parsed sampleSnapAlt) "USD" "EUR").1
      = (some ((95 : ℚ)/100), none) := rfl
  rw [h1, h2]
  simp only [ne_eq, Prod.mk.injEq, Option.some.injEq, and_true]
  norm_num

/-- C3 amended: every lookup re-reads the cache file — its I/O trace is
exactly one file read, no network fetch and no write — and its result is a
pure function of the file contents: the rate lookup factors through
read_from_file, and any two file states whose reads agree give identical
results for all three lookups. -/
theorem lookups_read_file_and_factor (fs : FileState) (a : ℚ) (b t : String) :
    (get_exchange_rate fs b t).2 = [Event.fileRead "currency.json"]
    ∧ (get_available_currencies fs).2 = [Event.fileRead "currency.json"]
    ∧ (convert_currency fs a b t).2 = [Event.fileRead "currency.json"]
    ∧ (get_exchange_rate fs b t).1
        = lookup_exchange_rate (read_from_file fs).1 b t
    ∧ ∀ fs', (read_from_file fs).1 = (read_from_file fs').1 →
        (get_exchange_rate fs b t).1 = (get_exchange_rate fs' b t).1
        ∧ (get_available_currencies fs).1 = (get_available_currencies fs').1
        ∧ (convert_currency fs a b t).1 = (convert_currency fs' a b t).1 := by
  have havail : ∀ g : FileState, get_available_currencies g
      = (available_from (read_from_file g).1, (read_from_file g).2) := by
    intro g
    cases g <;> rfl
  refine ⟨?_, ?_, ?_, ?_, ?_⟩
  · rw [get_exchange_rate_eq, read_events]
  · rw [havail, read_events]
  · rw [convert_currency_eq]
    split <;> simp [read_events]
  · rw [get_exchange_rate_eq]
  · intro fs' h
    refine ⟨?_, ?_, ?_⟩
    · rw [get_exchange_rate_eq, get_exchange_rate_eq, h]
    · rw [havail, havail, h]
    · rw [convert_currency_eq, convert_currency_eq, h]
      simp only [apply_ite Prod.fst]

/-- Witness for the amended C3: the lookup on a missing file performs
exactly one file read, and two different file states whose reads agree (a
missing file and an unparseable one, both read as None) give the same
lookup result. -/
theorem lookups_read_file_and_factor_witness :
    (get_exchange_rate .absent "USD" "EUR").2
      = [Event.fileRead "currency.json"]
    ∧ (get_exchange_rate .absent "USD" "EUR").1
      = (get_exchange_rate .unparseable "USD" "EUR").1 :=
  ⟨(lookups_read_file_and_factor .absent 100 "USD" "EUR").1,
   ((lookups_read_file_and_factor .absent 100 "USD" "EUR").2.2.2.2
     .unparseable rfl).1⟩
